import Mathlib

/-!
Verification development for the web-page-summary pipeline
(fetcher / extractor / summarizer / formatter).

Each definition is a shallow embedding of one function of the source:
  * `validateUrl`, `scrapeLoop`, `scrapeUrl`   — src/modules/scraper.js
  * `extractTitle`, `findMainContent`          — src/modules/extractor.ts
  * `extractKeyPoints`, `countWords`, `summarize` — src/modules/summarizer.js
  * `convertToMarkdown`, `formatOutput`        — src/modules/converter.js
External collaborators (the HTTP client, the WHATWG URL parser, the AI
endpoint, the Turndown HTML→Markdown converter, the platform locale date
formatter and the ambient clock) are passed in as function parameters, so
every embedded function is a pure function of its inputs and those
collaborators.  Machine strings are modelled as Lean `String`s manipulated
through their character lists (the inputs of interest are ASCII, where JS
UTF-16 indices and Lean character indices coincide).
-/

namespace WebSummary

/-! ## JavaScript string primitives, modelled on character lists -/

/-- JS `String.prototype.trim` : drop whitespace from both ends. -/
def trimChars (cs : List Char) : List Char :=
  ((cs.dropWhile Char.isWhitespace).reverse.dropWhile Char.isWhitespace).reverse

/-- `trim` lifted to `String`. -/
def jsTrim (s : String) : String := String.mk (trimChars s.toList)

/-- JS `String.prototype.startsWith`. -/
def jsStartsWith (s pat : String) : Bool := pat.toList.isPrefixOf s.toList

/-- Whether `pat` occurs as a contiguous sublist (JS `String.prototype.includes`
with a non-empty needle). -/
def containsSub (pat : List Char) : List Char → Bool
  | [] => pat.isPrefixOf []
  | c :: rest => pat.isPrefixOf (c :: rest) || containsSub pat rest

/-- `includes` lifted to `String`. -/
def jsIncludes (s pat : String) : Bool := containsSub pat.toList s.toList

/-- Worker for `splitRunsBy`: `cur` is the current token reversed, `inRun`
records whether the previous character was a delimiter (so that a maximal run
of delimiters produces a single split, as a JS regex split on `/X+/` does). -/
def splitRunsAux (p : Char → Bool) : List Char → List Char → Bool → List (List Char)
  | [], cur, _ => [cur.reverse]
  | c :: rest, cur, inRun =>
    if p c then
      if inRun then splitRunsAux p rest cur true
      else cur.reverse :: splitRunsAux p rest [] true
    else splitRunsAux p rest (c :: cur) false

/-- JS `String.prototype.split` with a one-character-class regex under `+`
(`/\n+/`, `/\s+/`): tokens between maximal delimiter runs, with an empty token
kept at either end when the string starts or ends with a delimiter. -/
def splitRunsBy (p : Char → Bool) (cs : List Char) : List (List Char) :=
  splitRunsAux p cs [] false

/-- `countWords` of summarizer.js: `text.split(/\s+/).filter(Boolean).length`. -/
def countWords (text : String) : Nat :=
  ((splitRunsBy Char.isWhitespace text.toList).filter (fun t => !t.isEmpty)).length

/-! ## Fetcher (src/modules/scraper.js) -/

/-- A successful HTTP response as the retry loop sees it: the declared
content type and the body (`response.data`). -/
structure HttpResponse where
  contentType : String
  body : String
deriving DecidableEq

/-- A failed axios request: the library error code (for example
a timeout surfaces as ECONNABORTED) and the status of a non-2xx
response when one was received. -/
structure AxiosErr where
  code : String
  responseStatus : Option Nat
deriving DecidableEq

/-- The network error kinds `createNetworkError` is called with in scraper.js. -/
inductive NetworkErrorKind where
  | INVALID_URL
  | TIMEOUT
  | CONNECTION_FAILED
  | INVALID_RESPONSE
deriving DecidableEq

/-- The scheme-prepending step of `validateUrl` (scraper.js lines 15-17):
when the input starts with neither "http://" nor "https://", prepend
"https://". -/
def normalizeUrl (url : String) : String :=
  if !(jsStartsWith url "http://") && !(jsStartsWith url "https://") then
    "https://" ++ url
  else url

/-- `validateUrl` of scraper.js.  `parseURL` stands for the WHATWG `new URL`
constructor followed by `.toString()`: `none` models the constructor throwing.
A parse failure is classified as a NETWORK error with code INVALID_URL. -/
def validateUrl (parseURL : String → Option String) (url : String) :
    Except NetworkErrorKind String :=
  match parseURL (normalizeUrl url) with
  | some s => Except.ok s
  | none => Except.error NetworkErrorKind.INVALID_URL

/-- The retry loop of `scrapeUrl` (scraper.js lines 87-108).  `oracle k` is
the outcome of the axios GET made while the `attempts` counter holds `k`; the
loop runs `while (attempts <= retries)`, so from counter value `k` at most
`retries - k + 1` further GETs happen — the second argument of the recursion
is that remaining-iterations count, which the while condition decrements.
Returns (number of GET calls made, backoff delays slept in ms, final
outcome); after a failing attempt the counter is incremented first and the
delay is `2 ^ attempts * 1000` ms (line 104). -/
def scrapeLoop (oracle : Nat → Except AxiosErr HttpResponse) (k : Nat) :
    Nat → Nat × List Nat × Except AxiosErr HttpResponse
  | 0 =>
    match oracle k with
    | Except.ok r => (1, [], Except.ok r)
    | Except.error e => (1, [], Except.error e)
  | m + 1 =>
    match oracle k with
    | Except.ok r => (1, [], Except.ok r)
    | Except.error _ =>
      let rest := scrapeLoop oracle (k + 1) m
      (rest.1 + 1, 2 ^ (k + 1) * 1000 :: rest.2.1, rest.2.2)

/-- Classification of the last error once the loop exhausts its attempts
(scraper.js lines 110-127): ECONNABORTED becomes TIMEOUT, everything else
(ENOTFOUND, a non-2xx response, any other failure) becomes
CONNECTION_FAILED. -/
def classifyFetchError (e : AxiosErr) : NetworkErrorKind :=
  if e.code = "ECONNABORTED" then NetworkErrorKind.TIMEOUT
  else NetworkErrorKind.CONNECTION_FAILED

/-- The content-type guard of `scrapeUrl` (line 134):
`contentType.includes('text/html') || contentType.includes('application/xhtml+xml')`. -/
def isHtmlContentType (ct : String) : Bool :=
  jsIncludes ct "text/html" || jsIncludes ct "application/xhtml+xml"

/-- What one call of `scrapeUrl` did: how many GETs it issued, the backoff
delays it slept (in ms, in order), and the classified outcome.  The ok
payload keeps the normalized URL and the response whose body and metadata
the function returns. -/
structure FetchTrace where
  calls : Nat
  delays : List Nat
  result : Except NetworkErrorKind (String × HttpResponse)

/-- `scrapeUrl` of scraper.js: validate the URL, run the retry loop, classify
an exhausted loop's last error, and reject a successful response whose
content type is not an HTML media type (lines 133-139) — note that this
check runs after the loop, on its final response only. -/
def scrapeUrl (parseURL : String → Option String)
    (oracle : Nat → Except AxiosErr HttpResponse)
    (retries : Nat) (url : String) : FetchTrace :=
  match validateUrl parseURL url with
  | Except.error e => ⟨0, [], Except.error e⟩
  | Except.ok normalized =>
    match scrapeLoop oracle 0 retries with
    | (calls, delays, Except.error last) =>
      ⟨calls, delays, Except.error (classifyFetchError last)⟩
    | (calls, delays, Except.ok resp) =>
      if !(isHtmlContentType resp.contentType) then
        ⟨calls, delays, Except.error NetworkErrorKind.INVALID_RESPONSE⟩
      else
        ⟨calls, delays, Except.ok (normalized, resp)⟩

/-! ## Fetcher lemmas and claims C1, C2, C3 -/

/-- The loop issues at most one GET per permitted iteration. -/
theorem scrapeLoop_calls_le (oracle : Nat → Except AxiosErr HttpResponse) :
    ∀ m k, (scrapeLoop oracle k m).1 ≤ m + 1 := by
  intro m
  induction m with
  | zero => intro k; cases h : oracle k <;> simp [scrapeLoop, h]
  | succ m ih =>
    intro k
    cases h : oracle k with
    | ok r => simp [scrapeLoop, h]
    | error e =>
      have := ih (k + 1)
      simp only [scrapeLoop, h]
      omega

/-- The delays slept by the loop started at counter value `k` are the initial
segment 2^(k+1)·1000, 2^(k+2)·1000, ... of the backoff schedule. -/
theorem scrapeLoop_delays (oracle : Nat → Except AxiosErr HttpResponse) :
    ∀ m k, ∃ c, (scrapeLoop oracle k m).2.1
      = (List.range c).map (fun t => 2 ^ (k + 1 + t) * 1000) := by
  intro m
  induction m with
  | zero =>
    intro k
    refine ⟨0, ?_⟩
    cases h : oracle k <;> simp [scrapeLoop, h]
  | succ m ih =>
    intro k
    cases h : oracle k with
    | ok r => exact ⟨0, by simp [scrapeLoop, h]⟩
    | error e =>
      obtain ⟨c, hc⟩ := ih (k + 1)
      refine ⟨c + 1, ?_⟩
      simp only [scrapeLoop, h, hc, List.range_succ_eq_map, List.map_cons, List.map_map,
        List.cons.injEq]
      refine ⟨by simp, ?_⟩
      apply List.map_congr_left
      intro t _
      simp only [Function.comp_apply, Nat.succ_eq_add_one]
      have ht : k + 1 + 1 + t = k + 1 + (t + 1) := by omega
      rw [ht]

/-- Claim C1: for every configured retry count, a fetch makes at most
`retries + 1` GET attempts, and the backoff delays between consecutive
attempts are exactly 2^1, 2^2, ... seconds (stored in milliseconds), hence
strictly increasing. -/
theorem scrapeUrl_retry_spec (parseURL : String → Option String)
    (oracle : Nat → Except AxiosErr HttpResponse) (retries : Nat) (url : String) :
    (scrapeUrl parseURL oracle retries url).calls ≤ retries + 1 ∧
    (scrapeUrl parseURL oracle retries url).delays
      = (List.range (scrapeUrl parseURL oracle retries url).delays.length).map
          (fun t => 2 ^ (t + 1) * 1000) ∧
    List.Pairwise (· < ·) (scrapeUrl parseURL oracle retries url).delays := by
  have shape :
      ((scrapeUrl parseURL oracle retries url).calls = 0 ∧
        (scrapeUrl parseURL oracle retries url).delays = []) ∨
      ((scrapeUrl parseURL oracle retries url).calls = (scrapeLoop oracle 0 retries).1 ∧
        (scrapeUrl parseURL oracle retries url).delays = (scrapeLoop oracle 0 retries).2.1) := by
    unfold scrapeUrl
    split
    · exact Or.inl ⟨rfl, rfl⟩
    · split
      next calls delays last heq =>
        rw [heq]
        exact Or.inr ⟨rfl, rfl⟩
      next calls delays resp heq =>
        rw [heq]
        refine Or.inr ?_
        split <;> exact ⟨rfl, rfl⟩
  have hform : (scrapeUrl parseURL oracle retries url).delays
      = (List.range (scrapeUrl parseURL oracle retries url).delays.length).map
          (fun t => 2 ^ (t + 1) * 1000) := by
    rcases shape with ⟨_, hd⟩ | ⟨_, hd⟩
    · rw [hd]; simp
    · obtain ⟨c, hc⟩ := scrapeLoop_delays oracle retries 0
      rw [hd, hc]
      have hlen : ((List.range c).map (fun t => 2 ^ (0 + 1 + t) * 1000)).length = c := by
        simp
      rw [hlen]
      apply List.map_congr_left
      intro t _
      have ht : 0 + 1 + t = t + 1 := by omega
      rw [ht]
  refine ⟨?_, hform, ?_⟩
  · rcases shape with ⟨hc, _⟩ | ⟨hc, _⟩
    · omega
    · have := scrapeLoop_calls_le oracle retries 0
      omega
  · rw [hform]
    rw [List.pairwise_map]
    apply List.Pairwise.imp_of_mem ?_ (List.pairwise_lt_range _)
    intro a b _ _ hab
    have hpow : 2 ^ (a + 1) < 2 ^ (b + 1) :=
      Nat.pow_lt_pow_right (by norm_num) (by omega)
    exact Nat.mul_lt_mul_of_lt_of_le hpow (Nat.le_refl 1000) (by norm_num)

/-- Identity stub for the URL parser: accepts every string. -/
def parseOk : String → Option String := fun s => some s

/-- A successful response carrying a JSON (non-HTML) content type. -/
def jsonResponse : HttpResponse := ⟨"application/json", "x"⟩

/-- An oracle on which every GET succeeds with `jsonResponse`. -/
def alwaysJson : Nat → Except AxiosErr HttpResponse := fun _ => Except.ok jsonResponse

/-- Claim C2 counterexample: with `retries = 3` and every attempt returning a
2xx response whose content type is application/json, `scrapeUrl` issues
exactly one GET, sleeps no backoff delay, and fails with INVALID_RESPONSE:
the non-HTML response is never retried, although the claim predicts up to
3 retries (4 attempts) before the classified failure. -/
theorem scrapeUrl_nonHtml_cex :
    (scrapeUrl parseOk alwaysJson 3 "https://a.io").calls = 1 ∧
    (scrapeUrl parseOk alwaysJson 3 "https://a.io").delays = [] ∧
    (scrapeUrl parseOk alwaysJson 3 "https://a.io").result
      = Except.error NetworkErrorKind.INVALID_RESPONSE ∧
    (1 : Nat) ≠ 3 + 1 :=
  ⟨rfl, rfl, rfl, by decide⟩

/-- The loop stops at the first successful GET: if the attempts before `d`
all fail and attempt `d` succeeds (with `d` within the allowance), exactly
`d + 1` GETs happen and the loop's outcome is that response. -/
theorem scrapeLoop_first_success (oracle : Nat → Except AxiosErr HttpResponse)
    (resp : HttpResponse) :
    ∀ d k m, d ≤ m → (∀ j, j < d → ∃ e, oracle (k + j) = Except.error e) →
      oracle (k + d) = Except.ok resp →
      (scrapeLoop oracle k m).1 = d + 1 ∧
      (scrapeLoop oracle k m).2.2 = Except.ok resp := by
  intro d
  induction d with
  | zero =>
    intro k m _ _ hok
    rw [Nat.add_zero] at hok
    cases m <;> simp [scrapeLoop, hok]
  | succ d ih =>
    intro k m hdm hfail hok
    obtain ⟨m', rfl⟩ : ∃ m', m = m' + 1 := ⟨m - 1, by omega⟩
    obtain ⟨e, he⟩ := hfail 0 (Nat.succ_pos d)
    rw [Nat.add_zero] at he
    have hrec := ih (k + 1) m' (by omega)
      (fun j hj => by
        obtain ⟨e', he'⟩ := hfail (j + 1) (by omega)
        exact ⟨e', by rw [← he']; congr 1; omega⟩)
      (by rw [← hok]; congr 1; omega)
    simp only [scrapeLoop, he]
    have h1 := hrec.1
    exact ⟨by omega, hrec.2⟩

/-- Claim C2 amended: a successful response whose content type is not an HTML
media type is never retried.  When the attempts before `k ≤ retries` fail and
attempt `k` returns such a response, `scrapeUrl` makes exactly `k + 1` GETs —
regardless of how many retries remain — and fails with the classified
INVALID_RESPONSE network error. -/
theorem scrapeUrl_nonHtml_no_retry
    (parseURL : String → Option String) (oracle : Nat → Except AxiosErr HttpResponse)
    (retries : Nat) (url : String) (k : Nat) (resp : HttpResponse)
    (hk : k ≤ retries)
    (hfail : ∀ j, j < k → ∃ e, oracle j = Except.error e)
    (hok : oracle k = Except.ok resp)
    (hct : isHtmlContentType resp.contentType = false)
    (hv : ∃ s, parseURL (normalizeUrl url) = some s) :
    (scrapeUrl parseURL oracle retries url).calls = k + 1 ∧
    (scrapeUrl parseURL oracle retries url).result
      = Except.error NetworkErrorKind.INVALID_RESPONSE := by
  obtain ⟨s, hs⟩ := hv
  have hfs := scrapeLoop_first_success oracle resp k 0 retries hk
    (fun j hj => by
      obtain ⟨e, he⟩ := hfail j hj
      exact ⟨e, by rw [← he]; congr 1; omega⟩)
    (by rw [← hok]; congr 1; omega)
  have hvu : validateUrl parseURL url = Except.ok s := by
    simp [validateUrl, hs]
  unfold scrapeUrl
  rw [hvu]
  rcases hL : scrapeLoop oracle 0 retries with ⟨calls, delays, res⟩
  rw [hL] at hfs
  simp only at hfs
  obtain ⟨hcalls, hres⟩ := hfs
  subst hres
  simp only [hct]
  exact ⟨hcalls, rfl⟩

/-- An axios error with a generic connection-reset code. -/
def stubErr : AxiosErr := ⟨"ECONNRESET", none⟩

/-- An oracle whose first GET fails and whose later GETs return the JSON
response. -/
def oneFailThenJson : Nat → Except AxiosErr HttpResponse := fun k =>
  if k = 0 then Except.error stubErr else Except.ok jsonResponse

/-- Witness for the amended claim C2 at a concrete input: one failure, then a
non-HTML success; two GETs happen and INVALID_RESPONSE is raised although two
retries were still allowed. -/
theorem scrapeUrl_nonHtml_no_retry_witness :
    (scrapeUrl parseOk oneFailThenJson 3 "https://a.io").calls = 1 + 1 ∧
    (scrapeUrl parseOk oneFailThenJson 3 "https://a.io").result
      = Except.error NetworkErrorKind.INVALID_RESPONSE :=
  scrapeUrl_nonHtml_no_retry parseOk oneFailThenJson 3 "https://a.io" 1 jsonResponse
    (by omega)
    (fun j hj => ⟨stubErr, by
      have hj0 : j = 0 := by omega
      subst hj0
      rfl⟩)
    rfl rfl ⟨"https://a.io", rfl⟩

/-- Claim C3: a URL without an http or https scheme is normalized by
prepending "https://" before parsing; a string whose normalization the URL
parser rejects produces the classified INVALID_URL network error; and any
accepted call's output is exactly what the parser produced — no input is
accepted silently without parsing. -/
theorem validateUrl_spec (parseURL : String → Option String) (url : String) :
    ((jsStartsWith url "http://" = false ∧ jsStartsWith url "https://" = false) →
        normalizeUrl url = "https://" ++ url) ∧
    (parseURL (normalizeUrl url) = none →
        validateUrl parseURL url = Except.error NetworkErrorKind.INVALID_URL) ∧
    (∀ s, validateUrl parseURL url = Except.ok s → parseURL (normalizeUrl url) = some s) := by
  refine ⟨?_, ?_, ?_⟩
  · intro h
    simp [normalizeUrl, h.1, h.2]
  · intro h
    simp [validateUrl, h]
  · intro s h
    unfold validateUrl at h
    cases hp : parseURL (normalizeUrl url) with
    | none => rw [hp] at h; exact absurd h (by simp)
    | some t =>
      rw [hp] at h
      simp only [Except.ok.injEq] at h
      rw [h]

/-! ## DOM and selector model (src/modules/extractor.ts)

The extractor queries a parsed HTML document through cheerio.  A document is
a tree of element and text nodes; the selectors the source uses are a tag
name, a class, an id, a tag-with-class compound, and one-level descendant
combinations of those.  A selection (`$(sel)`) is the list of matching
elements in document (preorder) order. -/

/-- A parsed DOM node: an element with tag, optional id attribute, class list
and children, or a text node. -/
inductive Node where
  | text (data : String)
  | elem (tag : String) (idAttr : Option String) (classes : List String) (children : List Node)

mutual

/-- cheerio `.text()`: the concatenation of all descendant text nodes. -/
def Node.textContent : Node → String
  | .text s => s
  | .elem _ _ _ children => nodeListText children

/-- `.text()` of a list of sibling nodes (also of a selection: cheerio
concatenates the text of every matched element). -/
def nodeListText : List Node → String
  | [] => ""
  | n :: rest => n.textContent ++ nodeListText rest

end

/-- A simple CSS selector as used by extractor.ts: `tag`, `.class`, `#id` or
`tag.class`. -/
inductive SimpleSel where
  | tagName (t : String)
  | className (c : String)
  | idName (i : String)
  | tagWithClass (t c : String)

/-- A selector of extractor.ts: a simple selector, or a descendant pair such
as `article h1`. -/
inductive Sel where
  | simple (s : SimpleSel)
  | descendant (anc de : SimpleSel)

/-- Whether an element matches a simple selector (text nodes never match). -/
def matchesSimple (s : SimpleSel) : Node → Bool
  | .text _ => false
  | .elem tag idAttr classes _ =>
    match s with
    | .tagName t => tag == t
    | .className c => classes.contains c
    | .idName i => idAttr == some i
    | .tagWithClass t c => tag == t && classes.contains c

mutual

/-- All nodes of a subtree satisfying `p`, in document (preorder) order,
the subtree's root included. -/
def collectWhere (p : Node → Bool) : Node → List Node
  | .text s => if p (.text s) then [Node.text s] else []
  | .elem tag idAttr classes children =>
    (if p (.elem tag idAttr classes children) then [Node.elem tag idAttr classes children]
     else []) ++ collectWhereList p children

/-- `collectWhere` over a list of sibling subtrees. -/
def collectWhereList (p : Node → Bool) : List Node → List Node
  | [] => []
  | n :: rest => collectWhere p n ++ collectWhereList p rest

end

mutual

/-- The matches of a descendant selector `anc de`: nodes matching `de` with a
strict ancestor matching `anc`; `inside` records whether such an ancestor has
been passed. -/
def collectDesc (a d : SimpleSel) (inside : Bool) : Node → List Node
  | .text s => if inside && matchesSimple d (.text s) then [Node.text s] else []
  | .elem tag idAttr classes children =>
    (if inside && matchesSimple d (.elem tag idAttr classes children) then
      [Node.elem tag idAttr classes children]
     else []) ++
      collectDescList a d (inside || matchesSimple a (.elem tag idAttr classes children)) children

/-- `collectDesc` over a list of sibling subtrees. -/
def collectDescList (a d : SimpleSel) (inside : Bool) : List Node → List Node
  | [] => []
  | n :: rest => collectDesc a d inside n ++ collectDescList a d inside rest

end

/-- cheerio `$(sel)`: every matching element of the document, in document
order. -/
def selectAll (doc : Node) : Sel → List Node
  | .simple s => collectWhere (matchesSimple s) doc
  | .descendant a d => collectDesc a d false doc

/-- cheerio `.find(p)` on one element: its proper descendants satisfying `p`,
in document order. -/
def findDesc (p : Node → Bool) : Node → List Node
  | .text _ => []
  | .elem _ _ _ children => collectWhereList p children

/-- The ordered title selector list of `extractTitle` (extractor.ts lines
57-67). -/
def titleSelectors : List Sel :=
  [ Sel.simple (SimpleSel.tagWithClass "h1" "article-title"),
    Sel.simple (SimpleSel.tagWithClass "h1" "entry-title"),
    Sel.simple (SimpleSel.tagWithClass "h1" "post-title"),
    Sel.simple (SimpleSel.tagWithClass "h1" "title"),
    Sel.descendant (SimpleSel.tagName "article") (SimpleSel.tagName "h1"),
    Sel.descendant (SimpleSel.tagName "main") (SimpleSel.tagName "h1"),
    Sel.descendant (SimpleSel.className "article") (SimpleSel.tagName "h1"),
    Sel.descendant (SimpleSel.className "post") (SimpleSel.tagName "h1"),
    Sel.simple (SimpleSel.tagName "h1") ]

/-- `extractTitle` of extractor.ts: the first selector whose selection is
non-empty yields the trimmed text of its first match (even when that text is
empty); only when no selector matches at all is the `<title>` text used, an
empty `<title>` text becoming `undefined` (`|| undefined`, line 77). -/
def extractTitle (doc : Node) : Option String :=
  match titleSelectors.findSome? (fun sel => (selectAll doc sel).head?) with
  | some n => some (jsTrim n.textContent)
  | none =>
    let t := jsTrim (nodeListText (collectWhere (matchesSimple (SimpleSel.tagName "title")) doc))
    if t == "" then none else some t

/-- extractor.ts line 23: `extractTitle($) || new URL(url).hostname` — the
hostname is used when `extractTitle` returns `undefined` or the falsy empty
string. -/
def resolveTitle (doc : Node) (hostname : String) : String :=
  match extractTitle doc with
  | some t => if t == "" then hostname else t
  | none => hostname

/-- The ordered content selector list of `findMainContent` (extractor.ts
lines 125-136). -/
def contentSelectors : List Sel :=
  [ Sel.simple (SimpleSel.tagName "article"),
    Sel.simple (SimpleSel.className "article"),
    Sel.simple (SimpleSel.className "post"),
    Sel.simple (SimpleSel.className "entry-content"),
    Sel.simple (SimpleSel.className "article-content"),
    Sel.simple (SimpleSel.className "post-content"),
    Sel.simple (SimpleSel.className "content"),
    Sel.simple (SimpleSel.tagName "main"),
    Sel.simple (SimpleSel.idName "main"),
    Sel.simple (SimpleSel.idName "content") ]

/-- One iteration of the semantic-selector loop (lines 138-143): the
selector's first match, accepted when its trimmed visible text exceeds 200
characters. -/
def semanticTry (doc : Node) (sel : Sel) : Option Node :=
  match (selectAll doc sel).head? with
  | some n => if 200 < (jsTrim n.textContent).length then some n else none
  | none => none

/-- Elements matched by `'div, section, main'`. -/
def isBlockContainer : Node → Bool
  | .elem tag _ _ _ => tag == "div" || tag == "section" || tag == "main"
  | .text _ => false

/-- Elements matched by `'p'`. -/
def isParagraph : Node → Bool
  | .elem tag _ _ _ => tag == "p"
  | .text _ => false

/-- `$(element).find('p').length`: the number of paragraph descendants. -/
def paragraphCount (n : Node) : Nat := (findDesc isParagraph n).length

/-- The selection `$('body')`. -/
def bodyNodes (doc : Node) : List Node :=
  collectWhere (matchesSimple (SimpleSel.tagName "body")) doc

/-- The `paragraphContainers` array (lines 146-153): every
`div`/`section`/`main` descendant of the body with more than 2 paragraph
descendants, paired with its count, in document order. -/
def paragraphContainers (doc : Node) : List (Node × Nat) :=
  ((bodyNodes doc).flatMap (findDesc isBlockContainer)).filterMap
    (fun el => if paragraphCount el > 2 then some (el, paragraphCount el) else none)

/-- `findMainContent` of extractor.ts: the first semantic selector whose
first match has more than 200 characters of text wins; otherwise the
paragraph containers are sorted by descending count — JS `Array.prototype.sort`
is stable, so `List.insertionSort` with the non-strict comparison models the
comparator `(a, b) => b.count - a.count` — and the head of the sorted list is
taken; with no containers at all the body itself is the last resort.  `none`
models the empty selection a body-less document would give. -/
def findMainContent (doc : Node) : Option Node :=
  match contentSelectors.findSome? (semanticTry doc) with
  | some n => some n
  | none =>
    match (List.insertionSort (fun a b : Node × Nat => b.2 ≤ a.2)
        (paragraphContainers doc)).head? with
    | some pair => some pair.1
    | none => (bodyNodes doc).head?

/-! ## Extractor lemmas and claims C4, C5, C6 -/

/-- A first-match-wins loop (`findSome?`) returns the image of the first
element on which the probe fires. -/
theorem findSome_eq_of_first {α β : Type} (f : α → Option β) :
    ∀ (l : List α) (i : Nat) (hi : i < l.length) (b : β),
      f (l.get ⟨i, hi⟩) = some b →
      (∀ j (hj : j < i), f (l.get ⟨j, Nat.lt_trans hj hi⟩) = none) →
      l.findSome? f = some b := by
  intro l
  induction l with
  | nil => intro i hi; exact absurd hi (by simp)
  | cons a l ih =>
    intro i hi b hsome hnone
    cases i with
    | zero =>
      have h0 : f a = some b := hsome
      rw [List.findSome?_cons, h0]
    | succ i =>
      have ha : f a = none := hnone 0 (Nat.succ_pos i)
      rw [List.findSome?_cons, ha]
      exact ih i (by simpa using hi) b hsome (fun j hj => hnone (j + 1) (by omega))

/-- A document whose only h1 is empty and whose title element holds "T". -/
def emptyH1Doc : Node :=
  Node.elem "html" none [] [
    Node.elem "head" none [] [Node.elem "title" none [] [Node.text "T"]],
    Node.elem "body" none [] [Node.elem "h1" none [] []]]

/-- Claim C4 counterexample: in `emptyH1Doc` no title selector match has
non-empty text and the title element's text is "T", so the claim predicts
the resolved title "T"; the code resolves the hostname instead — the empty
h1 wins the selector loop and its empty text falls through `||` to the
hostname, skipping the title-element fallback. -/
theorem extractTitle_cex :
    resolveTitle emptyH1Doc "example.com" = "example.com" ∧
    jsTrim (nodeListText (collectWhere (matchesSimple (SimpleSel.tagName "title")) emptyH1Doc))
      = "T" ∧
    (titleSelectors.all fun sel =>
      (selectAll emptyH1Doc sel).all fun n => jsTrim n.textContent == "") = true ∧
    ("example.com" : String) ≠ "T" := by
  refine ⟨rfl, rfl, rfl, by decide⟩

/-- Claim C4 amended: title resolution selects the first selector that
matches at all and uses its trimmed text even when empty (the hostname then
replaces the empty text); the title element's text is consulted only when no
selector matches any element, and the hostname only when the chosen text is
empty or absent. -/
theorem extractTitle_resolution (doc : Node) (hostname : String) :
    (∀ (i : Nat) (hi : i < titleSelectors.length) (n : Node),
      (selectAll doc (titleSelectors.get ⟨i, hi⟩)).head? = some n →
      (∀ j (hj : j < i), (selectAll doc (titleSelectors.get ⟨j, Nat.lt_trans hj hi⟩)).head? = none) →
      resolveTitle doc hostname
        = if jsTrim n.textContent == "" then hostname else jsTrim n.textContent) ∧
    ((∀ sel ∈ titleSelectors, (selectAll doc sel).head? = none) →
      resolveTitle doc hostname =
        (if jsTrim (nodeListText (collectWhere (matchesSimple (SimpleSel.tagName "title")) doc))
            == "" then hostname
         else jsTrim (nodeListText (collectWhere (matchesSimple (SimpleSel.tagName "title")) doc)))) := by
  constructor
  · intro i hi n hsome hnone
    have hfs : titleSelectors.findSome? (fun sel => (selectAll doc sel).head?) = some n :=
      findSome_eq_of_first _ titleSelectors i hi n hsome hnone
    unfold resolveTitle extractTitle
    rw [hfs]
  · intro hall
    have hfs : titleSelectors.findSome? (fun sel => (selectAll doc sel).head?) = none :=
      List.findSome?_eq_none_iff.mpr hall
    unfold resolveTitle extractTitle
    rw [hfs]
    cases ht : (jsTrim (nodeListText (collectWhere (matchesSimple (SimpleSel.tagName "title")) doc))
        == "") <;> simp [ht]

/-- Claim C5: when the `i`-th semantic content selector is the first whose
first match carries more than 200 characters of trimmed text, that match is
the main content — the paragraph-density fallback is never consulted. -/
theorem findMainContent_semantic (doc : Node) (i : Nat) (n : Node)
    (hi : i < contentSelectors.length)
    (hsel : semanticTry doc (contentSelectors.get ⟨i, hi⟩) = some n)
    (hbefore : ∀ j (hj : j < i),
      semanticTry doc (contentSelectors.get ⟨j, Nat.lt_trans hj hi⟩) = none) :
    findMainContent doc = some n := by
  have hfs : contentSelectors.findSome? (semanticTry doc) = some n :=
    findSome_eq_of_first _ contentSelectors i hi n hsel hbefore
  unfold findMainContent
  rw [hfs]

/-- Body prose long enough to pass the 200-character threshold. -/
def articleProse : String :=
  "This article body is deliberately written to be long enough that its visible text exceeds the two hundred character threshold used by the semantic selector phase of the main content detection heuristic of the extractor module."

/-- An article element wrapping the long prose. -/
def articleNode : Node :=
  Node.elem "article" none [] [Node.elem "p" none [] [Node.text articleProse]]

/-- A short paragraph element. -/
def pEl (s : String) : Node := Node.elem "p" none [] [Node.text s]

/-- A generic div holding five short paragraphs — denser than the article. -/
def denseDiv : Node :=
  Node.elem "div" none [] [pEl "one", pEl "two", pEl "three", pEl "four", pEl "five"]

/-- A document holding both the long article and the denser generic div. -/
def semanticDoc : Node :=
  Node.elem "html" none [] [Node.elem "body" none [] [articleNode, denseDiv]]

set_option maxRecDepth 8000 in
/-- Witness for claim C5: in `semanticDoc` the article wins although the
generic div holds more paragraphs. -/
theorem findMainContent_semantic_witness :
    findMainContent semanticDoc = some articleNode :=
  findMainContent_semantic semanticDoc 0 articleNode (by decide) rfl
    (fun j hj => absurd hj (Nat.not_lt_zero j))

/-- The first pair attaining the maximal count — what taking the head of a
stably descending-sorted copy selects. -/
def firstMax : List (Node × Nat) → Option (Node × Nat)
  | [] => none
  | a :: l =>
    match firstMax l with
    | none => some a
    | some b => if a.2 < b.2 then some b else some a

/-- `firstMax` is `none` exactly on the empty list. -/
theorem firstMax_eq_none {l : List (Node × Nat)} : firstMax l = none ↔ l = [] := by
  cases l with
  | nil => simp [firstMax]
  | cons a l =>
    constructor
    · intro h
      exfalso
      revert h
      simp only [firstMax]
      cases firstMax l with
      | none => simp
      | some b => by_cases hab : a.2 < b.2 <;> simp [hab]
    · intro h; exact absurd h (by simp)

/-- The head of the stable descending insertion sort is the first maximum. -/
theorem insertionSort_head_eq_firstMax :
    ∀ l : List (Node × Nat),
      (List.insertionSort (fun a b : Node × Nat => b.2 ≤ a.2) l).head? = firstMax l := by
  intro l
  induction l with
  | nil => rfl
  | cons a l ih =>
    simp only [List.insertionSort]
    cases hs : List.insertionSort (fun a b : Node × Nat => b.2 ≤ a.2) l with
    | nil =>
      rw [hs] at ih
      have hnil : firstMax l = none := ih.symm
      simp only [List.orderedInsert, List.head?_cons, firstMax, hnil]
    | cons x xs =>
      rw [hs] at ih
      simp only [List.head?_cons] at ih
      simp only [List.orderedInsert]
      split
      · rename_i hax
        simp only [List.head?_cons, firstMax, ← ih]
        rw [if_neg (by omega)]
      · rename_i hax
        simp only [List.head?_cons, firstMax, ← ih]
        rw [if_pos (by omega)]

/-- `firstMax` selects an element of maximal count, and every earlier element
has a strictly smaller count (first-of-the-maxima). -/
theorem firstMax_spec :
    ∀ (l : List (Node × Nat)), l ≠ [] →
      ∃ (i : Nat) (hi : i < l.length),
        firstMax l = some (l.get ⟨i, hi⟩) ∧
        (∀ j (hj : j < l.length), (l.get ⟨j, hj⟩).2 ≤ (l.get ⟨i, hi⟩).2) ∧
        (∀ j (hj : j < i), (l.get ⟨j, Nat.lt_trans hj hi⟩).2 < (l.get ⟨i, hi⟩).2) := by
  intro l
  induction l with
  | nil => intro h; exact absurd rfl h
  | cons a l ih =>
    intro _
    cases hf : firstMax l with
    | none =>
      have hl : l = [] := firstMax_eq_none.mp hf
      subst hl
      refine ⟨0, by simp, by simp [firstMax], ?_, ?_⟩
      · intro j hj
        have hj0 : j = 0 := by simpa using hj
        subst hj0
        exact Nat.le_refl _
      · intro j hj
        exact absurd hj (Nat.not_lt_zero j)
    | some b =>
      have hlne : l ≠ [] := by
        intro h
        subst h
        simp [firstMax] at hf
      obtain ⟨i, hi, hfi, hmax, hstrict⟩ := ih hlne
      have hb : b = l.get ⟨i, hi⟩ := Option.some.inj (hf.symm.trans hfi)
      have hb2 : b.2 = (l.get ⟨i, hi⟩).2 := by rw [hb]
      by_cases hab : a.2 < b.2
      · refine ⟨i + 1, by simpa using Nat.succ_lt_succ hi, ?_, ?_, ?_⟩
        · simp only [firstMax, hf]
          rw [if_pos hab, hb]
          rfl
        · intro j hj
          simp only [List.length_cons] at hj
          cases j with
          | zero =>
            show a.2 ≤ (l.get ⟨i, hi⟩).2
            omega
          | succ j => exact hmax j (by omega)
        · intro j hj
          cases j with
          | zero =>
            show a.2 < (l.get ⟨i, hi⟩).2
            omega
          | succ j => exact hstrict j (by omega)
      · refine ⟨0, by simp, ?_, ?_, ?_⟩
        · simp only [firstMax, hf]
          rw [if_neg hab]
          rfl
        · intro j hj
          simp only [List.length_cons] at hj
          cases j with
          | zero => exact Nat.le_refl _
          | succ j =>
            have hjl : j < l.length := by omega
            have h1 := hmax j hjl
            show (l.get ⟨j, hjl⟩).2 ≤ a.2
            omega
        · intro j hj
          exact absurd hj (Nat.not_lt_zero j)

/-- The shape of `findMainContent` once the semantic phase has failed. -/
theorem findMainContent_of_none (doc : Node)
    (hsem : contentSelectors.findSome? (semanticTry doc) = none) :
    findMainContent doc =
      match (List.insertionSort (fun a b : Node × Nat => b.2 ≤ a.2)
          (paragraphContainers doc)).head? with
      | some pair => some pair.1
      | none => (bodyNodes doc).head? := by
  unfold findMainContent
  rw [hsem]

/-- Claim C6: when no semantic selector qualifies, the paragraph-density
fallback selects, among the body's `div`/`section`/`main` containers with
more than 2 paragraph descendants, the one with maximal count; every earlier
candidate has a strictly smaller count (so a tie goes to the first in
document order); with no candidate at all the document body is used. -/
theorem findMainContent_density (doc : Node)
    (hsem : contentSelectors.findSome? (semanticTry doc) = none) :
    (paragraphContainers doc = [] → findMainContent doc = (bodyNodes doc).head?) ∧
    (paragraphContainers doc ≠ [] →
      ∃ (i : Nat) (hi : i < (paragraphContainers doc).length),
        findMainContent doc = some (((paragraphContainers doc).get ⟨i, hi⟩).1) ∧
        (∀ j (hj : j < (paragraphContainers doc).length),
          ((paragraphContainers doc).get ⟨j, hj⟩).2
            ≤ ((paragraphContainers doc).get ⟨i, hi⟩).2) ∧
        (∀ j (hj : j < i),
          ((paragraphContainers doc).get ⟨j, Nat.lt_trans hj hi⟩).2
            < ((paragraphContainers doc).get ⟨i, hi⟩).2)) := by
  constructor
  · intro hemp
    rw [findMainContent_of_none doc hsem, hemp]
    rfl
  · intro hne
    obtain ⟨i, hi, hfi, hmax, hstrict⟩ := firstMax_spec (paragraphContainers doc) hne
    refine ⟨i, hi, ?_, hmax, hstrict⟩
    rw [findMainContent_of_none doc hsem, insertionSort_head_eq_firstMax, hfi]

/-- A document with no semantic match and no paragraph container. -/
def noCandDoc : Node :=
  Node.elem "html" none [] [Node.elem "body" none [] [pEl "hi"]]

/-- Three-paragraph div. -/
def divA : Node := Node.elem "div" none [] [pEl "a1", pEl "a2", pEl "a3"]

/-- First four-paragraph div. -/
def divB : Node := Node.elem "div" none [] [pEl "b1", pEl "b2", pEl "b3", pEl "b4"]

/-- Second four-paragraph div, tied with `divB`. -/
def divC : Node := Node.elem "div" none [] [pEl "c1", pEl "c2", pEl "c3", pEl "c4"]

/-- A document whose density candidates have counts 3, 4, 4. -/
def tieDoc : Node :=
  Node.elem "html" none [] [Node.elem "body" none [] [divA, divB, divC]]

/-- Witness for claim C6: with no candidate the body is returned, and on the
3-4-4 tie the earlier four-paragraph div wins. -/
theorem findMainContent_density_witness :
    findMainContent noCandDoc = (bodyNodes noCandDoc).head? ∧
    findMainContent tieDoc = some divB :=
  ⟨(findMainContent_density noCandDoc rfl).1 rfl, rfl⟩

/-! ## Summarizer (src/modules/summarizer.js) -/

/-- The alternatives of the heading regex
`/key points:|main points:|key takeaways:|main takeaways:/i`, lowercased. -/
def headingPhrases : List (List Char) :=
  ["key points:".toList, "main points:".toList, "key takeaways:".toList,
   "main takeaways:".toList]

/-- Case folding for the regex's `/i` flag (ASCII). -/
def lowerChars (cs : List Char) : List Char := cs.map Char.toLower

/-- `summary.match(regex).index`: the character index of the leftmost
occurrence of any heading phrase; the haystack passed in is already
lowercased. -/
def findHeadingIdx : List Char → Nat → Option Nat
  | [], _ => none
  | c :: rest, i =>
    if headingPhrases.any (fun p => p.isPrefixOf (c :: rest)) then some i
    else findHeadingIdx rest (i + 1)

/-- Whether a character belongs to the marker class `[-•\d.\s]` of line 87. -/
def isMarkerChar (c : Char) : Bool :=
  c == '-' || c == '•' || c.isDigit || c == '.' || c.isWhitespace

/-- `/^\d+\./.test(line)`: one or more digits then a dot (greedy matching
with no possible backtracking here). -/
def digitsDot (cs : List Char) : Bool :=
  let ds := cs.takeWhile Char.isDigit
  !ds.isEmpty && (cs.drop ds.length).head? == some '.'

/-- The bullet filter of line 86 on a raw line: its trimmed form starts with
'-', '•' or digits-then-dot. -/
def isBulletLine (line : List Char) : Bool :=
  let t := trimChars line
  t.head? == some '-' || t.head? == some '•' || digitsDot t

/-- The marker stripping of line 87:
`line.replace(/^[-•\d.\s]+/, '').trim()`. -/
def stripBulletMarker (line : List Char) : String :=
  String.mk (trimChars (line.dropWhile isMarkerChar))

/-- The `keyPoints` constant of lines 83-88, computed from the key-points
section (the text from the heading on): split on newline runs, drop the
heading line, keep the bullet-looking lines, strip their markers, drop the
empty results. -/
def bulletPoints (sect : List Char) : List String :=
  ((((splitRunsBy (fun c => c == '\n') sect).drop 1).filter isBulletLine).map
    stripBulletMarker).filter (fun s => s != "")

/-- `extractKeyPoints` of summarizer.js (lines 73-97): find the heading; the
trimmed text before it is the summary; the bullet items after it are the key
points, an empty collection yielding `undefined`. -/
def extractKeyPoints (summary : String) : String × Option (List String) :=
  match findHeadingIdx (lowerChars summary.toList) 0 with
  | none => (summary, none)
  | some i =>
    (String.mk (trimChars (summary.toList.take i)),
     if (bulletPoints (summary.toList.drop i)).length > 0 then
       some (bulletPoints (summary.toList.drop i))
     else none)

/-- The summarizer's result record. -/
structure SummaryResult where
  summary : String
  keyPoints : Option (List String)
  originalWordCount : Nat
  summaryWordCount : Nat
deriving DecidableEq

/-- The sentinel summary of the failure path (line 176). -/
def failedMessage : String := "Failed to generate summary. Please try again later."

/-- The summarizer retry loop (lines 119-167): `oracle k` is the response
text of the API call made while the `retries` counter holds `k` (`none`
models the call throwing); the loop runs `while (retries < maxRetries)`, the
second argument counting the remaining iterations.  The backoff sleeps are
not traced here; no claim concerns them. -/
def summarizeLoop (oracle : Nat → Option String) (k : Nat) : Nat → Option String
  | 0 => none
  | m + 1 =>
    match oracle k with
    | some t => some t
    | none => summarizeLoop oracle (k + 1) m

/-- `summarize` of summarizer.js: up to `maxRetries = 3` attempts; a success
is post-processed by `extractKeyPoints` and decorated with whitespace word
counts; when every attempt fails, the catch of line 171 swallows the error
and substitutes the sentinel result — the model is total because the source
never propagates a summarization failure. -/
def summarize (oracle : Nat → Option String) (content : String) : SummaryResult :=
  let originalWordCount := countWords content
  match summarizeLoop oracle 0 3 with
  | some txt =>
    let p := extractKeyPoints txt
    ⟨p.1, p.2, originalWordCount, countWords p.1⟩
  | none => ⟨failedMessage, none, originalWordCount, 0⟩

/-- Claim C7: when all three attempts fail, `summarize` returns the sentinel
result — fixed failure message, no key points, zero summary word count, the
input's whitespace word count — instead of propagating an error. -/
theorem summarize_degrades_on_failure (oracle : Nat → Option String) (content : String)
    (hfail : ∀ k, k < 3 → oracle k = none) :
    summarize oracle content = ⟨failedMessage, none, countWords content, 0⟩ := by
  have hloop : ∀ m k, (∀ j, j < m → oracle (k + j) = none) →
      summarizeLoop oracle k m = none := by
    intro m
    induction m with
    | zero => intro k _; rfl
    | succ m ih =>
      intro k hall
      have h0 : oracle k = none := by simpa using hall 0 (Nat.succ_pos m)
      simp only [summarizeLoop, h0]
      exact ih (k + 1) (fun j hj => by
        have hkj := hall (j + 1) (by omega)
        rw [← hkj]
        congr 1
        omega)
  unfold summarize
  rw [hloop 3 0 (fun j hj => by simpa using hfail j hj)]

/-- Witness for claim C7 at a concrete input: an always-failing oracle over a
three-word text. -/
theorem summarize_degrades_on_failure_witness :
    summarize (fun _ => none) "alpha beta gamma" = ⟨failedMessage, none, 3, 0⟩ := by
  rw [summarize_degrades_on_failure (fun _ => none) "alpha beta gamma" (fun k _ => rfl)]
  rfl

/-- The concrete response text of claim C8. -/
def c8Response : String := "Paragraph one.\n\nKey Points:\n- Point A\n- Point B"

/-- Claim C8: on the concrete response the summary is the paragraph before
the heading and the two bullet texts are the key points; and a response in
which no heading phrase occurs (case-insensitively) is returned whole, with
key points absent. -/
theorem extractKeyPoints_spec :
    extractKeyPoints c8Response = ("Paragraph one.", some ["Point A", "Point B"]) ∧
    ∀ s : String, (∀ p ∈ headingPhrases, containsSub p (lowerChars s.toList) = false) →
      extractKeyPoints s = (s, none) := by
  constructor
  · rfl
  · intro s hno
    have hidx : ∀ (cs : List Char), (∀ p ∈ headingPhrases, containsSub p cs = false) →
        ∀ i, findHeadingIdx cs i = none := by
      intro cs
      induction cs with
      | nil => intro _ i; rfl
      | cons c rest ih =>
        intro h i
        have hany : (headingPhrases.any fun p => p.isPrefixOf (c :: rest)) = false := by
          simp only [List.any_eq_false]
          intro p hp
          have hc := h p hp
          unfold containsSub at hc
          simp only [Bool.or_eq_false_iff] at hc
          simp [hc.1]
        unfold findHeadingIdx
        rw [hany]
        simp only [Bool.false_eq_true, if_false]
        exact ih (fun p hp => by
          have hc := h p hp
          unfold containsSub at hc
          simp only [Bool.or_eq_false_iff] at hc
          exact hc.2) (i + 1)
    have h0 : findHeadingIdx (lowerChars s.toList) 0 = none := hidx (lowerChars s.toList) hno 0
    simp only [extractKeyPoints, h0]

/-- Claim C10: when a heading phrase occurs at index `i` but no later line
looks like a bullet, the key points are absent (not an empty list) and the
summary is the trimmed text before the heading — the heading and everything
after it are dropped. -/
theorem extractKeyPoints_no_bullets (s : String) (i : Nat)
    (hidx : findHeadingIdx (lowerChars s.toList) 0 = some i)
    (hnb : ∀ line ∈ (splitRunsBy (fun c => c == '\n') (s.toList.drop i)).drop 1,
      isBulletLine line = false) :
    extractKeyPoints s = (String.mk (trimChars (s.toList.take i)), none) := by
  have hfilter :
      ((splitRunsBy (fun c => c == '\n') (s.toList.drop i)).drop 1).filter isBulletLine = [] :=
    List.filter_eq_nil_iff.mpr (fun a ha => by simp [hnb a ha])
  have hbp : bulletPoints (s.toList.drop i) = [] := by
    unfold bulletPoints
    rw [hfilter]
    rfl
  simp only [extractKeyPoints, hidx, hbp]
  rfl

/-- The concrete response text of claim C10: a heading with no bullets. -/
def c10Response : String := "Intro.\n\nKey Points:\nnothing bulleted here"

/-- Witness for claim C10 at the concrete response: the heading and its
non-bullet tail are dropped and key points are absent. -/
theorem extractKeyPoints_no_bullets_witness :
    extractKeyPoints c10Response = ("Intro.", none) := by
  rw [extractKeyPoints_no_bullets c10Response 8 rfl (by decide)]
  rfl

/-! ## Formatter (src/modules/converter.js) -/

/-- The record `convertToMarkdown` returns. -/
structure ConversionResult where
  markdown : String
  metadata : Option (String × String × String)

/-- `convertToMarkdown` of converter.js: `turndown` stands for the configured
TurndownService conversion (an external pure function), `now` for the
ambient clock (`new Date().toISOString()`), read only for the metadata
stamp. -/
def convertToMarkdown (turndown : String → String) (now : String)
    (content : String) (includeMetadata : Bool) : ConversionResult :=
  { markdown := turndown content,
    metadata := if includeMetadata then some ("", "", now) else none }

/-- The metadata argument of `formatOutput`; each field may be absent. -/
structure OutMetadata where
  title : Option String
  url : Option String
  date : Option String

/-- JS truthiness of an optional string field: undefined and "" are falsy. -/
def truthy : Option String → Bool
  | none => false
  | some s => s != ""

/-- `formatOutput` of converter.js (lines 75-105): `localeDate` stands for
`d => new Date(d).toLocaleDateString()` (a fixed platform function); the
clock `now` is consulted only when no date is supplied. -/
def formatOutput (localeDate : String → String) (now : String)
    (markdown : String) (m : OutMetadata) : String :=
  let formattedDate := if truthy m.date then localeDate (m.date.getD "") else localeDate now
  let out1 := if truthy m.title then "# " ++ m.title.getD "" ++ "\n\n" else ""
  let out2 := out1 ++ "## Article Information\n\n"
  let out3 := if truthy m.url then
      out2 ++ "**Source:** [" ++ m.url.getD "" ++ "](" ++ m.url.getD "" ++ ")\n\n"
    else out2
  let out4 := out3 ++ "**Date Summarized:** " ++ formattedDate ++ "\n\n"
  let out5 := out4 ++ "---\n\n"
  let out6 := out5 ++ "## Summary\n\n"
  out6 ++ markdown

/-- The render step of the pipeline (lib.ts steps 4 and 5): convert the
summary text to Markdown, then format it with the metadata. -/
def render (turndown localeDate : String → String) (now : String)
    (summaryText : String) (m : OutMetadata) : String :=
  formatOutput localeDate now (convertToMarkdown turndown now summaryText true).markdown m

/-- Claim C9: rendering is deterministic and idempotent — the document is a
pure function of the summary text and the metadata, and when the metadata
carries a date the ambient clock has no influence, so rendering the same
inputs twice (at different times) gives byte-identical documents. -/
theorem render_deterministic (turndown localeDate : String → String)
    (summaryText : String) (m : OutMetadata) (hdate : truthy m.date = true)
    (now1 now2 : String) :
    render turndown localeDate now1 summaryText m
      = render turndown localeDate now2 summaryText m := by
  unfold render formatOutput convertToMarkdown
  simp only [hdate, if_true]

/-- Witness for claim C9 at a concrete input: two renderings at different
clock readings agree. -/
theorem render_deterministic_witness :
    render id id "T1" "hello" ⟨some "Title", some "https://a.io", some "2024-01-01"⟩
      = render id id "T2" "hello" ⟨some "Title", some "https://a.io", some "2024-01-01"⟩ :=
  render_deterministic id id "hello" ⟨some "Title", some "https://a.io", some "2024-01-01"⟩
    rfl "T1" "T2"

end WebSummary
